import Mathlib

/-!
Shallow embedding of the streaming fan-out subsystem of a Twitter API client
(Go sources: `stream.go` and the package files defining the data model and
`convertToTweet`).  Pure data and the bodies of the relevant functions are
translated into executable Lean definitions; channels are represented by
their identity (a `Nat`), sends on a channel by lists of sent values, and
the background goroutines by the pure content of their loop bodies.
-/

namespace Twitter

/-! ## Data model (from the package source) -/

/-- Go's `StreamRule` defines which tweets the filtered stream should return. -/
structure StreamRule where
  id : String
  rule : String
deriving DecidableEq, Repr

/-- Go's `StreamSubscription` pairs a delivery channel with a rule.  The Go
channel `Tweets chan Tweet` is modelled by its identity, a natural number;
Go compares subscriptions with `==`, i.e. channel identity plus rule. -/
structure StreamSubscription where
  tweets : Nat
  rule : StreamRule
deriving DecidableEq, Repr

/-- Go's `Author` represents a Twitter user who wrote a tweet. -/
structure Author where
  name : String
  handle : String
  picture : String
  verified : Bool
  id : String
deriving DecidableEq, Repr

/-- Go's `PollOption` represents a possible answer in a poll. -/
structure PollOption where
  position : Int
  label : String
  votes : Int
deriving DecidableEq, Repr

/-- Go's `Tweet` represents a tweet with all relevant metadata (the domain
object delivered to subscribers). -/
structure Tweet where
  id : String
  text : String
  author : Author
  created : String
  images : List String
  retweets : Int
  replies : Int
  likes : Int
  quotes : Int
  ruleIDs : List String
  hasVideo : Bool
  videoPreviewURL : String
  sensitive : Bool
  poll : List PollOption
deriving DecidableEq, Repr

/-- Go's `metrics` describes users interacting with a tweet (raw API form). -/
structure metrics where
  retweets : Int
  replies : Int
  likes : Int
  quotes : Int
deriving DecidableEq, Repr

/-- Go's `attachments` stores media keys and poll ids of a raw tweet. -/
structure attachments where
  mediaKeys : List String
  pollIDs : List String
deriving DecidableEq, Repr

/-- Go's `tweet` represents how the Twitter API describes tweets (raw form). -/
structure tweet where
  authorID : String
  text : String
  id : String
  createdAt : String
  metrics : metrics
  attachments : attachments
  sensitive : Bool
deriving DecidableEq, Repr

/-- Go's `user` is a Twitter user as given by the API. -/
structure user where
  id : String
  name : String
  handle : String
  picture : String
  verified : Bool
deriving DecidableEq, Repr

/-- Go's `media` is used to resolve media keys from attachments to urls. -/
structure media where
  mediaKey : String
  type : String
  url : String
  videoPreviewImageURL : String
deriving DecidableEq, Repr

/-- A poll of the `includes` metadata (anonymous struct in the source). -/
structure poll where
  options : List PollOption
  id : String
deriving DecidableEq, Repr

/-- Go's `includes` holds metadata for tweets like media and user(s). -/
structure includes where
  users : List user
  mediaItems : List media
  polls : List poll
deriving DecidableEq, Repr

/-! ## `convertToTweet` (decoding collaborator) -/

/-- The author-resolution loop of `convertToTweet`: the first user of the
includes bundle whose id equals the tweet's author id fills the author
fields (the Go loop breaks on the first match); otherwise every author
field keeps its zero value. -/
def resolveAuthor (users : List user) (authorID : String) : Author :=
  match users.find? (fun u => u.id = authorID) with
  | some u =>
      { name := u.name, handle := u.handle, picture := u.picture,
        verified := u.verified, id := u.id }
  | none => { name := "", handle := "", picture := "", verified := false, id := "" }

/-- The media-resolution loops of `convertToTweet`: for each media key of
the tweet's attachments, every media item of the includes bundle with that
key contributes — a photo appends its url to the image list, a video sets
the video flag and overwrites the preview url.  Accumulator:
`(images, hasVideo, videoPreviewURL)`. -/
def resolveMedia (mediaKeys : List String) (items : List media) :
    List String × Bool × String :=
  mediaKeys.foldl
    (fun acc mediaKey =>
      items.foldl
        (fun acc2 mediaItem =>
          if mediaKey = mediaItem.mediaKey then
            match mediaItem.type with
            | "photo" => (acc2.1 ++ [mediaItem.url], acc2.2.1, acc2.2.2)
            | "video" => (acc2.1, true, mediaItem.videoPreviewImageURL)
            | _ => acc2
          else acc2)
        acc)
    ([], false, "")

/-- The poll-resolution loops of `convertToTweet`: the options of the last
matching poll win (the Go inner loop overwrites without breaking). -/
def resolvePoll (pollIDs : List String) (polls : List poll) : List PollOption :=
  pollIDs.foldl
    (fun acc pollID =>
      polls.foldl (fun acc2 p => if p.id = pollID then p.options else acc2) acc)
    []

/-- Go's `convertToTweet` merges the raw tweet and includes metadata into a
`Tweet`; a `none` rule-matches pointer leaves the rule-id list nil. -/
def convertToTweet (tw : tweet) (incl : includes)
    (ruleMatches : Option (List StreamRule)) : Tweet :=
  let author := resolveAuthor incl.users tw.authorID
  let m := resolveMedia tw.attachments.mediaKeys incl.mediaItems
  let pollOptions := resolvePoll tw.attachments.pollIDs incl.polls
  let rules : List String :=
    match ruleMatches with
    | none => []
    | some ms => ms.map (fun r => r.id)
  { id := tw.id, text := tw.text, author := author, created := tw.createdAt,
    images := m.1, retweets := tw.metrics.retweets,
    replies := tw.metrics.replies, likes := tw.metrics.likes,
    quotes := tw.metrics.quotes, ruleIDs := rules, hasVideo := m.2.1,
    videoPreviewURL := m.2.2, sensitive := tw.sensitive, poll := pollOptions }

/-! Helper lemmas: a fold whose step fixes the accumulator on every list
element returns the initial accumulator. -/

theorem foldl_fixed {α β : Type} (f : α → β → α) (l : List β) (a : α)
    (h : ∀ b ∈ l, ∀ x : α, f x b = x) : l.foldl f a = a := by
  induction l generalizing a with
  | nil => rfl
  | cons b bs ih =>
      rw [List.foldl_cons, h b (List.mem_cons_self b bs), ih]
      intro c hc x
      exact h c (List.mem_cons_of_mem b hc) x

theorem resolveAuthor_no_match (users : List user) (authorID : String)
    (h : ∀ u ∈ users, u.id ≠ authorID) :
    resolveAuthor users authorID =
      { name := "", handle := "", picture := "", verified := false, id := "" } := by
  unfold resolveAuthor
  have hfind : users.find? (fun u => u.id = authorID) = none := by
    rw [List.find?_eq_none]
    intro u hu
    simpa using h u hu
  rw [hfind]

theorem resolveMedia_no_match (mediaKeys : List String) (items : List media)
    (h : ∀ k ∈ mediaKeys, ∀ m ∈ items, k ≠ m.mediaKey) :
    resolveMedia mediaKeys items = ([], false, "") := by
  unfold resolveMedia
  apply foldl_fixed
  intro k hk acc
  apply foldl_fixed
  intro m hm acc2
  rw [if_neg (h k hk m hm)]

theorem resolvePoll_no_match (pollIDs : List String) (polls : List poll)
    (h : ∀ pid ∈ pollIDs, ∀ p ∈ polls, p.id ≠ pid) :
    resolvePoll pollIDs polls = [] := by
  unfold resolvePoll
  apply foldl_fixed
  intro pid hpid acc
  apply foldl_fixed
  intro p hp acc2
  rw [if_neg (h pid hpid p hp)]

/-- C9: conversion of a raw record plus includes metadata to the domain
`Tweet` is total (it is a Lean function, with no error outcome), and an
author id, media key, or poll id with no matching entry in the includes
bundle leaves that piece of enrichment absent: zero-valued author fields,
no image or video entry, no poll options. -/
theorem convertToTweet_unresolved_omitted (tw : tweet) (incl : includes)
    (ruleMatches : Option (List StreamRule)) :
    ((∀ u ∈ incl.users, u.id ≠ tw.authorID) →
        (convertToTweet tw incl ruleMatches).author =
          { name := "", handle := "", picture := "", verified := false, id := "" }) ∧
    ((∀ k ∈ tw.attachments.mediaKeys, ∀ m ∈ incl.mediaItems, k ≠ m.mediaKey) →
        (convertToTweet tw incl ruleMatches).images = [] ∧
        (convertToTweet tw incl ruleMatches).hasVideo = false ∧
        (convertToTweet tw incl ruleMatches).videoPreviewURL = "") ∧
    ((∀ pid ∈ tw.attachments.pollIDs, ∀ p ∈ incl.polls, p.id ≠ pid) →
        (convertToTweet tw incl ruleMatches).poll = []) := by
  refine ⟨fun h => ?_, fun h => ?_, fun h => ?_⟩
  · simp only [convertToTweet]
    exact resolveAuthor_no_match _ _ h
  · simp only [convertToTweet]
    rw [resolveMedia_no_match _ _ h]
    exact ⟨rfl, rfl, rfl⟩
  · simp only [convertToTweet]
    exact resolvePoll_no_match _ _ h

theorem convertToTweet_unresolved_omitted_witness :
    (convertToTweet
        { authorID := "a9", text := "hi", id := "t1", createdAt := "2021",
          metrics := { retweets := 0, replies := 0, likes := 0, quotes := 0 },
          attachments := { mediaKeys := ["k1"], pollIDs := ["p1"] },
          sensitive := false }
        { users := [{ id := "a7", name := "n", handle := "h", picture := "", verified := true }],
          mediaItems := [{ mediaKey := "k9", type := "photo", url := "u", videoPreviewImageURL := "" }],
          polls := [{ options := [{ position := 1, label := "l", votes := 2 }], id := "p9" }] }
        none).author =
      { name := "", handle := "", picture := "", verified := false, id := "" } ∧
    (convertToTweet
        { authorID := "a9", text := "hi", id := "t1", createdAt := "2021",
          metrics := { retweets := 0, replies := 0, likes := 0, quotes := 0 },
          attachments := { mediaKeys := ["k1"], pollIDs := ["p1"] },
          sensitive := false }
        { users := [{ id := "a7", name := "n", handle := "h", picture := "", verified := true }],
          mediaItems := [{ mediaKey := "k9", type := "photo", url := "u", videoPreviewImageURL := "" }],
          polls := [{ options := [{ position := 1, label := "l", votes := 2 }], id := "p9" }] }
        none).images = [] ∧
    (convertToTweet
        { authorID := "a9", text := "hi", id := "t1", createdAt := "2021",
          metrics := { retweets := 0, replies := 0, likes := 0, quotes := 0 },
          attachments := { mediaKeys := ["k1"], pollIDs := ["p1"] },
          sensitive := false }
        { users := [{ id := "a7", name := "n", handle := "h", picture := "", verified := true }],
          mediaItems := [{ mediaKey := "k9", type := "photo", url := "u", videoPreviewImageURL := "" }],
          polls := [{ options := [{ position := 1, label := "l", votes := 2 }], id := "p9" }] }
        none).poll = [] := by
  have h := convertToTweet_unresolved_omitted
    { authorID := "a9", text := "hi", id := "t1", createdAt := "2021",
      metrics := { retweets := 0, replies := 0, likes := 0, quotes := 0 },
      attachments := { mediaKeys := ["k1"], pollIDs := ["p1"] },
      sensitive := false }
    { users := [{ id := "a7", name := "n", handle := "h", picture := "", verified := true }],
      mediaItems := [{ mediaKey := "k9", type := "photo", url := "u", videoPreviewImageURL := "" }],
      polls := [{ options := [{ position := 1, label := "l", votes := 2 }], id := "p9" }] }
    none
  exact ⟨h.1 (by decide), (h.2.1 (by decide)).1, h.2.2 (by decide)⟩

/-! ## Fan-out (the per-tweet body of the forwarding goroutine of `stream`) -/

/-- The fan-out step of `stream`, per decoded tweet: under the lock, for
every subscription of the subscriber list and every entry of the tweet's
matched-rule-id list, if the entry equals the subscription's rule id the
tweet is sent on the subscription's channel.  The result lists the sends
in loop order, each as the target subscription paired with the sent
tweet. -/
def fanOutSends (subs : List StreamSubscription) (t : Tweet) :
    List (StreamSubscription × Tweet) :=
  subs.flatMap (fun sub =>
    (t.ruleIDs.filter (fun m => m = sub.rule.id)).map (fun _ => (sub, t)))

/-- C1: the fan-out step sends the event on the channels of exactly those
subscriptions whose rule identifier occurs in the event's matched-rule-id
list: a subscription of the subscriber set receives the event if and only
if its rule id is in the list. -/
theorem fanout_delivers_exactly_matching (subs : List StreamSubscription)
    (t : Tweet) (sub : StreamSubscription) (h : sub ∈ subs) :
    (sub, t) ∈ fanOutSends subs t ↔ sub.rule.id ∈ t.ruleIDs := by
  unfold fanOutSends
  constructor
  · intro hm
    rw [List.mem_flatMap] at hm
    obtain ⟨sub2, _, hmem⟩ := hm
    rw [List.mem_map] at hmem
    obtain ⟨m, hmf, heq⟩ := hmem
    obtain ⟨hm2, hmid⟩ := List.mem_filter.mp hmf
    have hs : sub2 = sub := congrArg Prod.fst heq
    have hmeq : m = sub2.rule.id := by simpa using hmid
    rw [hs] at hmeq
    rw [← hmeq]
    exact hm2
  · intro hid
    rw [List.mem_flatMap]
    refine ⟨sub, h, List.mem_map.mpr ⟨sub.rule.id, List.mem_filter.mpr ⟨hid, by simp⟩, rfl⟩⟩

theorem fanout_delivers_exactly_matching_witness :
    (⟨0, ⟨"r1", "cats"⟩⟩ : StreamSubscription) ∈
      [(⟨0, ⟨"r1", "cats"⟩⟩ : StreamSubscription), ⟨1, ⟨"r2", "dogs"⟩⟩, ⟨2, ⟨"r3", "fish"⟩⟩] ∧
    ((((⟨0, ⟨"r1", "cats"⟩⟩ : StreamSubscription),
        ({ id := "t", text := "x",
           author := { name := "", handle := "", picture := "", verified := false, id := "" },
           created := "", images := [], retweets := 0, replies := 0, likes := 0,
           quotes := 0, ruleIDs := ["r1", "r3"], hasVideo := false,
           videoPreviewURL := "", sensitive := false, poll := [] } : Tweet)) ∈
        fanOutSends
          [⟨0, ⟨"r1", "cats"⟩⟩, ⟨1, ⟨"r2", "dogs"⟩⟩, ⟨2, ⟨"r3", "fish"⟩⟩]
          { id := "t", text := "x",
            author := { name := "", handle := "", picture := "", verified := false, id := "" },
            created := "", images := [], retweets := 0, replies := 0, likes := 0,
            quotes := 0, ruleIDs := ["r1", "r3"], hasVideo := false,
            videoPreviewURL := "", sensitive := false, poll := [] }) ↔
      "r1" ∈ ["r1", "r3"]) :=
  ⟨by decide,
   fanout_delivers_exactly_matching
     [⟨0, ⟨"r1", "cats"⟩⟩, ⟨1, ⟨"r2", "dogs"⟩⟩, ⟨2, ⟨"r3", "fish"⟩⟩]
     { id := "t", text := "x",
       author := { name := "", handle := "", picture := "", verified := false, id := "" },
       created := "", images := [], retweets := 0, replies := 0, likes := 0,
       quotes := 0, ruleIDs := ["r1", "r3"], hasVideo := false,
       videoPreviewURL := "", sensitive := false, poll := [] }
     ⟨0, ⟨"r1", "cats"⟩⟩ (by decide)⟩

/-! ## `UnsubscribeStream` -/

/-- The observable outcome of one `UnsubscribeStream` call: the new
subscriber list, the rules whose deletion is requested (via the
asynchronous orphan-cleanup goroutine), whether a stop signal is sent on
the stop channel, and the channels that are closed. -/
structure UnsubscribeResult where
  subs : List StreamSubscription
  deleteRequests : List StreamRule
  stopSignal : Bool
  closedChannels : List Nat
deriving DecidableEq, Repr

/-- The scan loop of `UnsubscribeStream`: walks the subscriber list
tracking the index of the subscription to remove (`none` is Go's `-1`)
and the orphan flag, and breaks as soon as the index is found and the
rule is known not to be orphaned. -/
def unsubScan (target : StreamSubscription) :
    List StreamSubscription → Nat → Option Nat → Bool → Option Nat × Bool
  | [], _, index, orphaned => (index, orphaned)
  | sub :: rest, i, index, orphaned =>
      let index2 := if target = sub then some i else index
      let orphaned2 :=
        if target ≠ sub ∧ target.rule.id = sub.rule.id then false else orphaned
      if index2.isSome && !orphaned2 then (index2, orphaned2)
      else unsubScan target rest (i + 1) index2 orphaned2

/-- Go's `UnsubscribeStream`: scan for the subscription and the orphan status,
remove the subscription when found, request deletion of the rule when it
is orphaned, send a stop signal when no subscribers remain, and close the
removed subscription's channel (unconditionally, as in the source). -/
def UnsubscribeStream (subs : List StreamSubscription)
    (subToRemove : StreamSubscription) : UnsubscribeResult :=
  let scan := unsubScan subToRemove subs 0 none true
  let newSubs :=
    match scan.1 with
    | some k => subs.eraseIdx k
    | none => subs
  { subs := newSubs,
    deleteRequests := if scan.2 then [subToRemove.rule] else [],
    stopSignal := newSubs.length == 0,
    closedChannels := [subToRemove.tweets] }

/-- Scanning a prefix that does not contain the target leaves the index
`none` and conjoins the orphan flag with the absence of a rule-id
sibling in that prefix. -/
theorem unsubScan_none_append (s : StreamSubscription)
    (l1 rest : List StreamSubscription) (h : s ∉ l1) :
    ∀ (i : Nat) (b : Bool),
      unsubScan s (l1 ++ rest) i none b =
        unsubScan s rest (i + l1.length) none
          (b && !(l1.any (fun t => s.rule.id == t.rule.id))) := by
  induction l1 with
  | nil => intro i b; simp
  | cons x xs ih =>
      intro i b
      have hxs : s ∉ xs := fun hm => h (List.mem_cons_of_mem x hm)
      have hx : s ≠ x := fun he => h (he ▸ List.mem_cons_self x xs)
      have harith : i + 1 + xs.length = i + (xs.length + 1) := by omega
      by_cases hid : s.rule.id = x.rule.id
      · rw [List.cons_append]
        simp only [unsubScan, if_neg hx, if_pos (And.intro hx hid),
          Option.isSome_none, Bool.false_and, Bool.false_eq_true, if_false,
          ih hxs]
        rw [List.length_cons, harith]
        congr 1
        simp [hid]
      · rw [List.cons_append]
        simp only [unsubScan, if_neg hx,
          if_neg (fun hc : s ≠ x ∧ s.rule.id = x.rule.id => hid hc.2),
          Option.isSome_none, Bool.false_and, Bool.false_eq_true, if_false,
          ih hxs]
        rw [List.length_cons, harith]
        congr 1
        have hbeq : (s.rule.id == x.rule.id) = false := beq_eq_false_iff_ne.mpr hid
        simp [hbeq]

/-- Once the index is found with the orphan flag still set, scanning a
suffix that does not contain the target keeps that index and ends with
the orphan flag exactly when the suffix has no rule-id sibling (the loop
breaks at the first sibling, which fixes the flag at `false`). -/
theorem unsubScan_found (s : StreamSubscription) (l : List StreamSubscription)
    (h : s ∉ l) :
    ∀ (i k : Nat),
      unsubScan s l i (some k) true =
        (some k, !(l.any (fun t => s.rule.id == t.rule.id))) := by
  induction l with
  | nil => intro i k; simp [unsubScan]
  | cons x xs ih =>
      intro i k
      have hxs : s ∉ xs := fun hm => h (List.mem_cons_of_mem x hm)
      have hx : s ≠ x := fun he => h (he ▸ List.mem_cons_self x xs)
      by_cases hid : s.rule.id = x.rule.id
      · simp only [unsubScan, if_neg hx, if_pos (And.intro hx hid)]
        simp [hid]
      · simp only [unsubScan, if_neg hx,
          if_neg (fun hc : s ≠ x ∧ s.rule.id = x.rule.id => hid hc.2)]
        have hbeq : (s.rule.id == x.rule.id) = false := beq_eq_false_iff_ne.mpr hid
        simp only [Option.isSome_some, Bool.not_true, Bool.and_false,
          Bool.false_eq_true, if_false, ih hxs]
        simp [hbeq]

/-- Full characterization of the scan on a list that contains the target
exactly once: the index is the target's position, and the orphan flag
reports the absence of a rule-id sibling among the other elements. -/
theorem unsubScan_split (s : StreamSubscription) (l1 l2 : List StreamSubscription)
    (h1 : s ∉ l1) (h2 : s ∉ l2) :
    unsubScan s (l1 ++ s :: l2) 0 none true =
      (some l1.length,
        !((l1 ++ l2).any (fun t => s.rule.id == t.rule.id))) := by
  rw [unsubScan_none_append s l1 (s :: l2) h1 0 true]
  cases hb : l1.any (fun t => s.rule.id == t.rule.id) with
  | true =>
      simp [unsubScan, List.any_append, hb]
  | false =>
      simp only [hb, Bool.true_and, Bool.not_false, Bool.and_true]
      simp [unsubScan]
      rw [unsubScan_found s l2 h2]
      simp [List.any_append, hb]

/-- Removing the element at the position right after a prefix. -/
theorem eraseIdx_append_cons {α : Type} (l1 l2 : List α) (a : α) :
    (l1 ++ a :: l2).eraseIdx l1.length = l1 ++ l2 := by
  induction l1 with
  | nil => rfl
  | cons x xs ih => simp [List.eraseIdx, ih]

/-- Go's `UnsubscribeStream` on a list containing the subscription exactly
once: the subscription is removed, the rule deletion is requested exactly
when no other subscription shares the rule id, the stop signal is sent
exactly when nothing remains, and the channel is closed. -/
theorem UnsubscribeStream_split (s : StreamSubscription)
    (l1 l2 : List StreamSubscription) (h1 : s ∉ l1) (h2 : s ∉ l2) :
    UnsubscribeStream (l1 ++ s :: l2) s =
      { subs := l1 ++ l2,
        deleteRequests :=
          if (l1 ++ l2).any (fun t => s.rule.id == t.rule.id) then [] else [s.rule],
        stopSignal := (l1 ++ l2).length == 0,
        closedChannels := [s.tweets] } := by
  unfold UnsubscribeStream
  rw [unsubScan_split s l1 l2 h1 h2]
  cases hb : (l1 ++ l2).any (fun t => s.rule.id == t.rule.id) with
  | true => simp [hb, eraseIdx_append_cons]
  | false => simp [hb, eraseIdx_append_cons]

/-- Go's `UnsubscribeStream` on a list that does not contain the subscription:
the subscriber list is unchanged, yet the channel is still closed, the
rule deletion is still requested when no subscription shares the rule id,
and the stop signal is still sent when the list is empty. -/
theorem UnsubscribeStream_not_mem (subs : List StreamSubscription)
    (s : StreamSubscription) (h : s ∉ subs) :
    UnsubscribeStream subs s =
      { subs := subs,
        deleteRequests :=
          if subs.any (fun t => s.rule.id == t.rule.id) then [] else [s.rule],
        stopSignal := subs.length == 0,
        closedChannels := [s.tweets] } := by
  unfold UnsubscribeStream
  have hscan : unsubScan s subs 0 none true =
      (none, !(subs.any (fun t => s.rule.id == t.rule.id))) := by
    have hh := unsubScan_none_append s subs [] h 0 true
    rw [List.append_nil] at hh
    rw [hh]
    simp [unsubScan]
  rw [hscan]
  cases hb : subs.any (fun t => s.rule.id == t.rule.id) with
  | true => simp [hb]
  | false => simp [hb]

/-- Any duplicate-free list containing `s` splits as `l1 ++ s :: l2` with
`s` in neither part. -/
theorem mem_nodup_split {s : StreamSubscription} {subs : List StreamSubscription}
    (hs : s ∈ subs) (hnd : subs.Nodup) :
    ∃ l1 l2, subs = l1 ++ s :: l2 ∧ s ∉ l1 ∧ s ∉ l2 := by
  obtain ⟨l1, l2, rfl⟩ := List.append_of_mem hs
  have hnl := List.nodup_append.mp hnd
  refine ⟨l1, l2, rfl, ?_, ?_⟩
  · intro hmem
    exact hnl.2.2 hmem (List.mem_cons_self s l2)
  · exact (List.nodup_cons.mp hnl.2.1).1

/-- C2: for a subscriber set containing the subscription `s` (the set is
duplicate-free, as every reachable subscriber set is, each subscription
getting a fresh channel), `UnsubscribeStream` triggers exactly one
deletion request for `s`'s rule when no remaining subscription shares the
rule identifier, and zero deletion requests when one does. -/
theorem unsubscribe_orphan_rule_deletion (subs : List StreamSubscription)
    (s : StreamSubscription) (hnd : subs.Nodup) (hs : s ∈ subs) :
    ((∀ t ∈ (UnsubscribeStream subs s).subs, t.rule.id ≠ s.rule.id) →
        (UnsubscribeStream subs s).deleteRequests = [s.rule]) ∧
    ((∃ t ∈ (UnsubscribeStream subs s).subs, t.rule.id = s.rule.id) →
        (UnsubscribeStream subs s).deleteRequests = []) := by
  obtain ⟨l1, l2, rfl, h1, h2⟩ := mem_nodup_split hs hnd
  rw [UnsubscribeStream_split s l1 l2 h1 h2]
  constructor
  · intro hnone
    rw [if_neg]
    intro hany
    obtain ⟨t, ht, hp⟩ := List.any_eq_true.mp hany
    exact hnone t ht (beq_iff_eq.mp hp).symm
  · rintro ⟨t, ht, heq⟩
    rw [if_pos]
    exact List.any_eq_true.mpr ⟨t, ht, beq_iff_eq.mpr heq.symm⟩

theorem unsubscribe_orphan_rule_deletion_witness :
    (([(⟨0, ⟨"r1", "cats"⟩⟩ : StreamSubscription), ⟨1, ⟨"r2", "dogs"⟩⟩].Nodup ∧
        (⟨0, ⟨"r1", "cats"⟩⟩ : StreamSubscription) ∈
          [(⟨0, ⟨"r1", "cats"⟩⟩ : StreamSubscription), ⟨1, ⟨"r2", "dogs"⟩⟩]) ∧
      ((∀ t ∈ (UnsubscribeStream [⟨0, ⟨"r1", "cats"⟩⟩, ⟨1, ⟨"r2", "dogs"⟩⟩]
            ⟨0, ⟨"r1", "cats"⟩⟩).subs, t.rule.id ≠ "r1") →
          (UnsubscribeStream [⟨0, ⟨"r1", "cats"⟩⟩, ⟨1, ⟨"r2", "dogs"⟩⟩]
            ⟨0, ⟨"r1", "cats"⟩⟩).deleteRequests = [⟨"r1", "cats"⟩]) ∧
      ((∃ t ∈ (UnsubscribeStream [⟨0, ⟨"r1", "cats"⟩⟩, ⟨1, ⟨"r2", "dogs"⟩⟩]
            ⟨0, ⟨"r1", "cats"⟩⟩).subs, t.rule.id = "r1") →
          (UnsubscribeStream [⟨0, ⟨"r1", "cats"⟩⟩, ⟨1, ⟨"r2", "dogs"⟩⟩]
            ⟨0, ⟨"r1", "cats"⟩⟩).deleteRequests = [])) :=
  ⟨⟨by decide, by decide⟩,
    unsubscribe_orphan_rule_deletion
      [⟨0, ⟨"r1", "cats"⟩⟩, ⟨1, ⟨"r2", "dogs"⟩⟩] ⟨0, ⟨"r1", "cats"⟩⟩
      (by decide) (by decide)⟩

/-- C3 counterexample: unsubscribing a subscription that is absent from
the subscriber set is not free of observable effects — on the empty set
it still requests deletion of the subscription's rule, still sends a stop
signal, and still closes the subscription's channel. -/
theorem unsubscribe_absent_counterexample :
    ((⟨0, ⟨"r1", "cats"⟩⟩ : StreamSubscription) ∉ ([] : List StreamSubscription)) ∧
    (UnsubscribeStream [] ⟨0, ⟨"r1", "cats"⟩⟩).deleteRequests = [⟨"r1", "cats"⟩] ∧
    (UnsubscribeStream [] ⟨0, ⟨"r1", "cats"⟩⟩).stopSignal = true ∧
    (UnsubscribeStream [] ⟨0, ⟨"r1", "cats"⟩⟩).closedChannels = [0] := by
  decide

/-- C3 amended: when the subscription is absent the subscriber set is
left unchanged, but the call is not a no-op: the subscription's channel
is still closed (so a second `Unsubscribe` of the same subscription
closes an already-closed channel), the rule deletion is still requested
when no subscription of the set shares the rule identifier, and the stop
signal is still sent when the set is empty. -/
theorem unsubscribe_absent_set_unchanged (subs : List StreamSubscription)
    (s : StreamSubscription) (h : s ∉ subs) :
    (UnsubscribeStream subs s).subs = subs ∧
    (UnsubscribeStream subs s).closedChannels = [s.tweets] ∧
    (UnsubscribeStream subs s).deleteRequests =
      (if subs.any (fun t => s.rule.id == t.rule.id) then [] else [s.rule]) ∧
    ((UnsubscribeStream subs s).stopSignal = true ↔ subs = []) := by
  rw [UnsubscribeStream_not_mem subs s h]
  refine ⟨rfl, rfl, rfl, ?_⟩
  simp [List.length_eq_zero]

theorem unsubscribe_absent_set_unchanged_witness :
    ((⟨5, ⟨"r9", "owls"⟩⟩ : StreamSubscription) ∉
        [(⟨0, ⟨"r1", "cats"⟩⟩ : StreamSubscription)]) ∧
    ((UnsubscribeStream [⟨0, ⟨"r1", "cats"⟩⟩] ⟨5, ⟨"r9", "owls"⟩⟩).subs =
        [⟨0, ⟨"r1", "cats"⟩⟩] ∧
      (UnsubscribeStream [⟨0, ⟨"r1", "cats"⟩⟩] ⟨5, ⟨"r9", "owls"⟩⟩).closedChannels = [5] ∧
      (UnsubscribeStream [⟨0, ⟨"r1", "cats"⟩⟩] ⟨5, ⟨"r9", "owls"⟩⟩).deleteRequests =
        (if [(⟨0, ⟨"r1", "cats"⟩⟩ : StreamSubscription)].any
            (fun t => "r9" == t.rule.id) then [] else [⟨"r9", "owls"⟩]) ∧
      ((UnsubscribeStream [⟨0, ⟨"r1", "cats"⟩⟩] ⟨5, ⟨"r9", "owls"⟩⟩).stopSignal = true ↔
        [(⟨0, ⟨"r1", "cats"⟩⟩ : StreamSubscription)] = [])) :=
  ⟨by decide,
    unsubscribe_absent_set_unchanged [⟨0, ⟨"r1", "cats"⟩⟩] ⟨5, ⟨"r9", "owls"⟩⟩ (by decide)⟩

/-! ## `SubscribeStream` and sequences of subscribe/unsubscribe calls -/

/-- The client state relevant to the subscription manager: the subscriber
list plus the allocator of channel identities (Go's `make(chan Tweet)`
always yields a channel distinct from every live one; the next unused
identity models that). -/
structure ClientState where
  streamSubscribers : List StreamSubscription
  nextChan : Nat
deriving DecidableEq, Repr

/-- Go's `SubscribeStream`: allocate a fresh channel, append the new
subscription to the subscriber list, and return it. -/
def SubscribeStream (st : ClientState) (rule : StreamRule) :
    ClientState × StreamSubscription :=
  let sub : StreamSubscription := ⟨st.nextChan, rule⟩
  (⟨st.streamSubscribers ++ [sub], st.nextChan + 1⟩, sub)

/-- One call of a subscribe/unsubscribe sequence. -/
inductive StreamOp where
  | subscribeOp (rule : StreamRule)
  | unsubscribeOp (sub : StreamSubscription)
deriving DecidableEq, Repr

/-- Apply one call to the client state (the lock serializes calls, so a
sequence of calls is a fold). -/
def applyOp (st : ClientState) : StreamOp → ClientState
  | .subscribeOp r => (SubscribeStream st r).1
  | .unsubscribeOp s =>
      { streamSubscribers := (UnsubscribeStream st.streamSubscribers s).subs,
        nextChan := st.nextChan }

/-- Run a sequence of calls from the empty subscriber set. -/
def runOps (ops : List StreamOp) : ClientState :=
  ops.foldl applyOp ⟨[], 0⟩

/-- Number of subscribe calls of a sequence; the channel allocator
advances once per subscribe. -/
def countSubscribes : List StreamOp → Nat
  | [] => 0
  | .subscribeOp _ :: ops => countSubscribes ops + 1
  | .unsubscribeOp _ :: ops => countSubscribes ops

/-- The removal step of `UnsubscribeStream` never adds entries. -/
theorem UnsubscribeStream_subs_sublist (subs : List StreamSubscription)
    (s : StreamSubscription) :
    List.Sublist (UnsubscribeStream subs s).subs subs := by
  unfold UnsubscribeStream
  cases h : (unsubScan s subs 0 none true).1 with
  | none => simp [h]
  | some k =>
      simp only [h]
      exact List.eraseIdx_sublist subs k

/-- Membership after `UnsubscribeStream` on a duplicate-free list. -/
theorem UnsubscribeStream_mem_iff (subs : List StreamSubscription)
    (s : StreamSubscription) (hnd : subs.Nodup) (t : StreamSubscription) :
    t ∈ (UnsubscribeStream subs s).subs ↔ t ∈ subs ∧ t ≠ s := by
  by_cases hs : s ∈ subs
  · obtain ⟨l1, l2, rfl, h1, h2⟩ := mem_nodup_split hs hnd
    rw [UnsubscribeStream_split s l1 l2 h1 h2]
    constructor
    · intro ht
      rcases List.mem_append.mp ht with hl | hr
      · exact ⟨List.mem_append.mpr (Or.inl hl), fun he => h1 (he ▸ hl)⟩
      · refine ⟨List.mem_append.mpr (Or.inr (List.mem_cons_of_mem s hr)), ?_⟩
        exact fun he => h2 (he ▸ hr)
    · rintro ⟨hmem, hne⟩
      rcases List.mem_append.mp hmem with hl | hr
      · exact List.mem_append.mpr (Or.inl hl)
      · rcases List.mem_cons.mp hr with he | hr2
        · exact absurd he hne
        · exact List.mem_append.mpr (Or.inr hr2)
  · rw [UnsubscribeStream_not_mem subs s hs]
    exact ⟨fun ht => ⟨ht, fun he => hs (he ▸ ht)⟩, fun hh => hh.1⟩

/-- Well-formedness of a reachable client state: no duplicate
subscriptions, every channel identity below the allocator. -/
def StateWF (st : ClientState) : Prop :=
  st.streamSubscribers.Nodup ∧ ∀ t ∈ st.streamSubscribers, t.tweets < st.nextChan

theorem applyOp_wf (st : ClientState) (op : StreamOp) (h : StateWF st) :
    StateWF (applyOp st op) := by
  obtain ⟨hnd, hlt⟩ := h
  cases op with
  | subscribeOp r =>
      constructor
      · rw [applyOp, SubscribeStream, List.nodup_append]
        refine ⟨hnd, List.nodup_singleton _, ?_⟩
        intro a ha hb
        rw [List.mem_singleton] at hb
        subst hb
        exact Nat.lt_irrefl _ (hlt _ ha)
      · intro t ht
        rw [applyOp, SubscribeStream] at ht
        rcases List.mem_append.mp ht with h1 | h2
        · exact Nat.lt_succ_of_lt (hlt t h1)
        · rw [List.mem_singleton] at h2
          subst h2
          exact Nat.lt_succ_self _
  | unsubscribeOp u =>
      have hsub := UnsubscribeStream_subs_sublist st.streamSubscribers u
      exact ⟨hnd.sublist hsub, fun t ht => hlt t (hsub.subset ht)⟩

theorem foldl_applyOp_wf (ops : List StreamOp) (st : ClientState)
    (h : StateWF st) : StateWF (ops.foldl applyOp st) := by
  induction ops generalizing st with
  | nil => exact h
  | cons op ops ih => exact ih _ (applyOp_wf st op h)

theorem forall_getElem_cons_ne {α : Type} (op : α) (ops : List α) (x : α) :
    (∀ j : Nat, (op :: ops)[j]? ≠ some x) ↔
      (op ≠ x ∧ ∀ j : Nat, ops[j]? ≠ some x) := by
  constructor
  · intro h
    refine ⟨fun he => h 0 (by simp [he]), fun j => by simpa using h (j + 1)⟩
  · rintro ⟨h0, h⟩ j
    cases j with
    | zero => simpa using h0
    | succ j => simpa using h j

theorem forall_getElem_cons_pos {α : Type} (op : α) (ops : List α) (x : α) :
    (∀ j : Nat, 0 < j → (op :: ops)[j]? ≠ some x) ↔
      (∀ j : Nat, ops[j]? ≠ some x) := by
  constructor
  · intro h j
    simpa using h (j + 1) (Nat.succ_pos j)
  · intro h j hj
    cases j with
    | zero => omega
    | succ j => simpa using h j

theorem forall_getElem_cons_shift {α : Type} (op : α) (ops : List α) (x : α)
    (i : Nat) :
    (∀ j : Nat, i + 1 < j → (op :: ops)[j]? ≠ some x) ↔
      (∀ j : Nat, i < j → ops[j]? ≠ some x) := by
  constructor
  · intro h j hj
    simpa using h (j + 1) (by omega)
  · intro h j hj
    cases j with
    | zero => omega
    | succ j => simpa using h j (by omega)

/-- Membership in the subscriber list after folding a call sequence over
an arbitrary well-formed state: a subscription is live exactly when it
was already live and never unsubscribed during the sequence, or some
subscribe call of the sequence created it (its channel identity is the
allocator value at that call) and no later call unsubscribed it. -/
theorem foldl_applyOp_mem_iff (ops : List StreamOp) (st : ClientState)
    (hwf : StateWF st) (s : StreamSubscription) :
    s ∈ (ops.foldl applyOp st).streamSubscribers ↔
      ((s ∈ st.streamSubscribers ∧
          ∀ j : Nat, ops[j]? ≠ some (StreamOp.unsubscribeOp s)) ∨
        (∃ i : Nat, ops[i]? = some (StreamOp.subscribeOp s.rule) ∧
          s.tweets = st.nextChan + countSubscribes (ops.take i) ∧
          ∀ j : Nat, i < j → ops[j]? ≠ some (StreamOp.unsubscribeOp s))) := by
  induction ops generalizing st with
  | nil => simp
  | cons op ops ih =>
      rw [List.foldl_cons]
      rw [ih (applyOp st op) (applyOp_wf st op hwf)]
      cases op with
      | subscribeOp r =>
          constructor
          · rintro (⟨hmem, hno⟩ | ⟨i, hi, htw, haft⟩)
            · have hmem2 : s ∈ st.streamSubscribers ∨ s = ⟨st.nextChan, r⟩ := by
                simpa [applyOp, SubscribeStream] using hmem
              rcases hmem2 with hl | hr
              · refine Or.inl ⟨hl, ?_⟩
                rw [forall_getElem_cons_ne]
                exact ⟨fun he => StreamOp.noConfusion he, hno⟩
              · refine Or.inr ⟨0, ?_, ?_, ?_⟩
                · simp [hr]
                · simp [hr, List.take_zero, countSubscribes]
                · rw [forall_getElem_cons_pos]
                  exact hno
            · refine Or.inr ⟨i + 1, by simpa using hi, ?_, ?_⟩
              · rw [List.take_succ_cons]
                simp only [countSubscribes]
                simp only [applyOp, SubscribeStream] at htw
                omega
              · rw [forall_getElem_cons_shift]
                exact haft
          · rintro (⟨hmem, hno⟩ | ⟨i, hi, htw, haft⟩)
            · rw [forall_getElem_cons_ne] at hno
              refine Or.inl ⟨?_, hno.2⟩
              simp only [applyOp, SubscribeStream]
              exact List.mem_append.mpr (Or.inl hmem)
            · cases i with
              | zero =>
                  rw [List.getElem?_cons_zero] at hi
                  have hrule : r = s.rule := by
                    cases (Option.some.injEq _ _).mp hi
                    rfl
                  rw [List.take_zero] at htw
                  simp only [countSubscribes, Nat.add_zero] at htw
                  refine Or.inl ⟨?_, ?_⟩
                  · simp only [applyOp, SubscribeStream]
                    refine List.mem_append.mpr (Or.inr ?_)
                    rw [List.mem_singleton]
                    cases s
                    simp only at htw hrule
                    simp [htw, hrule]
                  · rw [forall_getElem_cons_pos] at haft
                    exact haft
              | succ i =>
                  refine Or.inr ⟨i, by simpa using hi, ?_, ?_⟩
                  · rw [List.take_succ_cons] at htw
                    simp only [countSubscribes] at htw
                    simp only [applyOp, SubscribeStream]
                    omega
                  · rw [forall_getElem_cons_shift] at haft
                    exact haft
      | unsubscribeOp u =>
          have hmem_iff := UnsubscribeStream_mem_iff st.streamSubscribers u hwf.1 s
          constructor
          · rintro (⟨hmem, hno⟩ | ⟨i, hi, htw, haft⟩)
            · have hm2 := hmem_iff.mp (by simpa [applyOp] using hmem)
              refine Or.inl ⟨hm2.1, ?_⟩
              rw [forall_getElem_cons_ne]
              refine ⟨fun he => hm2.2 ?_, hno⟩
              cases he
              rfl
            · refine Or.inr ⟨i + 1, by simpa using hi, ?_, ?_⟩
              · rw [List.take_succ_cons]
                simp only [countSubscribes]
                simpa [applyOp] using htw
              · rw [forall_getElem_cons_shift]
                exact haft
          · rintro (⟨hmem, hno⟩ | ⟨i, hi, htw, haft⟩)
            · rw [forall_getElem_cons_ne] at hno
              refine Or.inl ⟨?_, hno.2⟩
              simp only [applyOp]
              refine hmem_iff.mpr ⟨hmem, fun he => hno.1 ?_⟩
              rw [he]
            · cases i with
              | zero =>
                  rw [List.getElem?_cons_zero] at hi
                  exact absurd ((Option.some.injEq _ _).mp hi)
                    (fun he => StreamOp.noConfusion he)
              | succ i =>
                  refine Or.inr ⟨i, by simpa using hi, ?_, ?_⟩
                  · rw [List.take_succ_cons] at htw
                    simp only [countSubscribes] at htw
                    simpa [applyOp] using htw
                  · rw [forall_getElem_cons_shift] at haft
                    exact haft

/-- C4: for every sequence of subscribe/unsubscribe calls starting from
the empty subscriber set, the resulting subscriber set is duplicate-free
and contains exactly the subscriptions that some subscribe call created
(the channel identity records which call) and that no later call
unsubscribed. -/
theorem run_ops_subscriber_set_exact (ops : List StreamOp) :
    (runOps ops).streamSubscribers.Nodup ∧
    ∀ s : StreamSubscription,
      s ∈ (runOps ops).streamSubscribers ↔
        ∃ i : Nat, ops[i]? = some (StreamOp.subscribeOp s.rule) ∧
          s.tweets = countSubscribes (ops.take i) ∧
          ∀ j : Nat, i < j → ops[j]? ≠ some (StreamOp.unsubscribeOp s) := by
  have hwf0 : StateWF ⟨[], 0⟩ := ⟨List.nodup_nil, by simp⟩
  constructor
  · exact (foldl_applyOp_wf ops _ hwf0).1
  · intro s
    rw [runOps, foldl_applyOp_mem_iff ops _ hwf0 s]
    simp

/-! ## The stream pump (`stream`) and its stop path -/

/-- The state of one pump run: the client's running flag, and whether the
deferred cleanup has cancelled the underlying request and closed the
response body (releasing the connection). -/
structure PumpState where
  streaming : Bool
  requestCancelled : Bool
  bodyClosed : Bool
deriving DecidableEq, Repr

/-- Why the final select of `stream` returns. -/
inductive StreamExitReason where
  | decodeError (e : String)
  | stopSignal
deriving DecidableEq, Repr

/-- The exit path of `stream`: whichever branch of the final select
fires, the function returns and its deferred calls run — the response
body is closed, the request context is cancelled, and the running flag
is cleared. -/
def streamExit (_st : PumpState) (_r : StreamExitReason) : PumpState :=
  { streaming := false, requestCancelled := true, bodyClosed := true }

/-- Go's `UnsubscribeStream` composed with the pump's reaction to the stop
channel: when the unsubscribe call sends a stop signal, the running
pump's select receives it and the pump exits. -/
def unsubscribeThenPump (subs : List StreamSubscription)
    (s : StreamSubscription) (pump : PumpState) :
    UnsubscribeResult × PumpState :=
  let r := UnsubscribeStream subs s
  (r, if r.stopSignal then streamExit pump .stopSignal else pump)

/-- C7: unsubscribing the only remaining subscription empties the
subscriber set and sends the stop signal, and — the pump's select
receiving it — the pump run ends: the running flag becomes false, the
underlying request is cancelled and the connection (response body)
released. -/
theorem last_unsubscribe_stops_pump (subs : List StreamSubscription)
    (s : StreamSubscription) (pump : PumpState) (h : subs = [s]) :
    (unsubscribeThenPump subs s pump).1.subs = [] ∧
    (unsubscribeThenPump subs s pump).1.stopSignal = true ∧
    (unsubscribeThenPump subs s pump).2.streaming = false ∧
    (unsubscribeThenPump subs s pump).2.requestCancelled = true ∧
    (unsubscribeThenPump subs s pump).2.bodyClosed = true := by
  subst h
  have hsplit := UnsubscribeStream_split s [] [] (List.not_mem_nil s) (List.not_mem_nil s)
  simp only [List.nil_append, List.any_nil, Bool.false_eq_true, if_false,
    List.length_nil] at hsplit
  simp [unsubscribeThenPump, hsplit, streamExit]

theorem last_unsubscribe_stops_pump_witness :
    ([(⟨0, ⟨"r1", "cats"⟩⟩ : StreamSubscription)] = [⟨0, ⟨"r1", "cats"⟩⟩]) ∧
    ((unsubscribeThenPump [⟨0, ⟨"r1", "cats"⟩⟩] ⟨0, ⟨"r1", "cats"⟩⟩
        ⟨true, false, false⟩).1.subs = [] ∧
      (unsubscribeThenPump [⟨0, ⟨"r1", "cats"⟩⟩] ⟨0, ⟨"r1", "cats"⟩⟩
        ⟨true, false, false⟩).1.stopSignal = true ∧
      (unsubscribeThenPump [⟨0, ⟨"r1", "cats"⟩⟩] ⟨0, ⟨"r1", "cats"⟩⟩
        ⟨true, false, false⟩).2.streaming = false ∧
      (unsubscribeThenPump [⟨0, ⟨"r1", "cats"⟩⟩] ⟨0, ⟨"r1", "cats"⟩⟩
        ⟨true, false, false⟩).2.requestCancelled = true ∧
      (unsubscribeThenPump [⟨0, ⟨"r1", "cats"⟩⟩] ⟨0, ⟨"r1", "cats"⟩⟩
        ⟨true, false, false⟩).2.bodyClosed = true) :=
  ⟨rfl,
    last_unsubscribe_stops_pump [⟨0, ⟨"r1", "cats"⟩⟩] ⟨0, ⟨"r1", "cats"⟩⟩
      ⟨true, false, false⟩ rfl⟩

/-! ## Stream lifecycle (`StartStream` and the running flag) -/

/-- Lifecycle state of the client, with pump instances split by phase:
`running` counts instances between `go tw.stream()` and the return of
`stream` (these hold the connection); `lingering` counts instances whose
`stream` call has returned — the deferred cleanup has released the
connection and cleared the flag — but whose decode and fan-out goroutines
have not all exited yet (the source never joins them).  An instance
reaches the Stopped state only when it leaves `lingering`.  Reads and
writes of the flag are modelled as atomic interleaved steps. -/
structure PumpInstances where
  streaming : Bool
  running : Nat
  lingering : Nat
deriving DecidableEq, Repr

/-- Go's `StartStream`: under the lock, if the flag is clear, set it and
launch one pump instance; otherwise do nothing. -/
def StartStream (st : PumpInstances) : PumpInstances :=
  if st.streaming then st
  else { streaming := true, running := st.running + 1, lingering := st.lingering }

/-- The return of a running instance's `stream` call: its select fired
and the deferred cleanup closes the body, cancels the request and clears
the flag — without joining the decode and fan-out goroutines, so the
instance lingers until they exit on their own. -/
def streamReturn (st : PumpInstances) : PumpInstances :=
  { streaming := false, running := st.running - 1, lingering := st.lingering + 1 }

/-- The exit of a lingering instance's remaining goroutines: only now has
that instance reached the Stopped state. -/
def goroutinesExit (st : PumpInstances) : PumpInstances :=
  { st with lingering := st.lingering - 1 }

/-- Interleaved lifecycle transitions: a `StartStream` call, the return
of a running instance's `stream` call, or the exit of a lingering
instance's goroutines. -/
inductive PumpStep : PumpInstances → PumpInstances → Prop
  | start (st : PumpInstances) : PumpStep st (StartStream st)
  | streamRet (st : PumpInstances) (h : 0 < st.running) :
      PumpStep st (streamReturn st)
  | gorExit (st : PumpInstances) (h : 0 < st.lingering) :
      PumpStep st (goroutinesExit st)

/-- States reachable from a fresh client (not streaming, no pump). -/
inductive PumpReachable : PumpInstances → Prop
  | init : PumpReachable ⟨false, 0, 0⟩
  | step {st st2 : PumpInstances} (h : PumpReachable st)
      (hs : PumpStep st st2) : PumpReachable st2

/-- Pump instances that have not reached the Stopped state. -/
def activeInstances (st : PumpInstances) : Nat := st.running + st.lingering

/-- C8 counterexample: a reachable schedule in which a second pump
instance starts while the first has not reached the Stopped state — the
first instance's `stream` call returns (clearing the flag) while its
decode/fan-out goroutines are still live, and `StartStream` then finds
the flag clear and launches a new instance: two instances are active at
once, refuting both the at-most-one-active-instance invariant and the
only-after-Stopped start condition. -/
theorem second_pump_starts_before_previous_stopped :
    PumpReachable ⟨true, 1, 1⟩ ∧ activeInstances ⟨true, 1, 1⟩ = 2 := by
  constructor
  · have h1 : PumpReachable ⟨true, 1, 0⟩ :=
      PumpReachable.step PumpReachable.init
        (by simpa [StartStream] using PumpStep.start ⟨false, 0, 0⟩)
    have h2 : PumpReachable ⟨false, 0, 1⟩ :=
      PumpReachable.step h1
        (by simpa [streamReturn] using PumpStep.streamRet ⟨true, 1, 0⟩ (by decide))
    exact PumpReachable.step h2
      (by simpa [StartStream] using PumpStep.start ⟨false, 0, 1⟩)
  · rfl

theorem pump_running_invariant (st : PumpInstances)
    (h : PumpReachable st) :
    st.running = (if st.streaming then 1 else 0) := by
  induction h with
  | init => rfl
  | step h hs ih =>
      rename_i st3 st4
      cases hs with
      | start =>
          by_cases hsb : st3.streaming
          · simpa [StartStream, hsb] using ih
          · simp [StartStream, hsb] at ih ⊢
            omega
      | streamRet hpos =>
          by_cases hsb : st3.streaming
          · simp [streamReturn, hsb] at ih ⊢
            omega
          · simp [streamReturn, hsb] at ih ⊢
            omega
      | gorExit hpos =>
          by_cases hsb : st3.streaming
          · simpa [goroutinesExit, hsb] using ih
          · simpa [goroutinesExit, hsb] using ih

/-- C8 amended: `StartStream` while the running flag is set is a no-op,
and at most one pump instance at a time is between start and the return
of its `stream` call (holding the connection): a start that launches a
new instance happens only once the previous instance's `stream` call has
returned, released the connection and cleared the flag — but not
necessarily once its decode/fan-out goroutines have exited, i.e. not
necessarily once it has reached the Stopped state. -/
theorem start_stream_single_running_instance (st : PumpInstances)
    (h : PumpReachable st) :
    st.running ≤ 1 ∧
    (st.streaming = true → StartStream st = st) ∧
    (st.streaming = false → st.running = 0) := by
  have hinv := pump_running_invariant st h
  refine ⟨?_, ?_, ?_⟩
  · rw [hinv]
    by_cases hsb : st.streaming <;> simp [hsb]
  · intro hs
    simp [StartStream, hs]
  · intro hs
    rw [hinv, hs]
    rfl

theorem start_stream_single_running_instance_witness :
    (⟨true, 1, 0⟩ : PumpInstances).running ≤ 1 ∧
    ((⟨true, 1, 0⟩ : PumpInstances).streaming = true →
        StartStream ⟨true, 1, 0⟩ = ⟨true, 1, 0⟩) ∧
    ((⟨true, 1, 0⟩ : PumpInstances).streaming = false →
        (⟨true, 1, 0⟩ : PumpInstances).running = 0) :=
  start_stream_single_running_instance ⟨true, 1, 0⟩
    (PumpReachable.step PumpReachable.init
      (by simpa [StartStream] using PumpStep.start ⟨false, 0, 0⟩))

/-! ## The decode goroutine of `stream` -/

/-- Go's `streamResponse` represents the data returned by the stream API for
one record: the raw tweet (json key `data`), the includes bundle, and
the matching rules. -/
structure streamResponse where
  data : tweet
  includes : includes
  matchingRules : List StreamRule
deriving DecidableEq, Repr

/-- The Go zero value of `streamResponse` (`var result streamResponse`):
what the loop converts when `Decode` fails without filling the record. -/
def zeroStreamResponse : streamResponse :=
  { data :=
      { authorID := "", text := "", id := "", createdAt := "",
        metrics := { retweets := 0, replies := 0, likes := 0, quotes := 0 },
        attachments := { mediaKeys := [], pollIDs := [] },
        sensitive := false },
    includes := { users := [], mediaItems := [], polls := [] },
    matchingRules := [] }

/-- The outcome of one `decoder.Decode(&result)` call: the error, if
any, plus whatever value the call leaves in `result`. -/
structure DecodedRecord where
  err : Option String
  result : streamResponse
deriving DecidableEq, Repr

/-- What the decode goroutine pushes on its three channels. -/
structure DecodeLoopOutput where
  errorsSurfaced : List String
  allTweetsSent : List Tweet
  tweetChanSent : List Tweet
deriving DecidableEq, Repr

/-- One iteration of the decode loop, statement by statement: a decode
error is sent on the error channel, and then — the body continues
regardless — the (possibly zero-valued) record is converted and sent on
the all-tweets channel (when enabled) and on the tweet channel. -/
def decodeIteration (enableAll : Bool) (rec : DecodedRecord) : DecodeLoopOutput :=
  let errs : List String :=
    match rec.err with
    | some e => [e]
    | none => []
  let t := convertToTweet rec.result.data rec.result.includes
    (some rec.result.matchingRules)
  { errorsSurfaced := errs,
    allTweetsSent := if enableAll then [t] else [],
    tweetChanSent := [t] }

/-- The decode loop over the records the decoder yields, in order. -/
def decodeLoopRun (enableAll : Bool) : List DecodedRecord → DecodeLoopOutput
  | [] => { errorsSurfaced := [], allTweetsSent := [], tweetChanSent := [] }
  | rec :: rest =>
      let it := decodeIteration enableAll rec
      let rst := decodeLoopRun enableAll rest
      { errorsSurfaced := it.errorsSurfaced ++ rst.errorsSurfaced,
        allTweetsSent := it.allTweetsSent ++ rst.allTweetsSent,
        tweetChanSent := it.tweetChanSent ++ rst.tweetChanSent }

/-- C6, evaluated at a failing input: when the first record is malformed
the decode error is surfaced, yet the very same iteration still converts
the zero-valued record and sends it on the tweet channel, and the loop
then decodes and sends the following record as well — the decode loop
does not terminate at the failure. -/
theorem decode_failure_still_delivers :
    (decodeIteration false
        { err := some "unexpected EOF", result := zeroStreamResponse }).errorsSurfaced
      = ["unexpected EOF"] ∧
    (decodeIteration false
        { err := some "unexpected EOF", result := zeroStreamResponse }).tweetChanSent.length
      = 1 ∧
    (decodeLoopRun false
        [{ err := some "unexpected EOF", result := zeroStreamResponse },
         { err := none,
           result :=
             { data :=
                 { authorID := "", text := "ok", id := "t2", createdAt := "",
                   metrics := { retweets := 0, replies := 0, likes := 0, quotes := 0 },
                   attachments := { mediaKeys := [], pollIDs := [] },
                   sensitive := false },
               includes := { users := [], mediaItems := [], polls := [] },
               matchingRules := [⟨"r1", "cats"⟩] } }]).tweetChanSent.length = 2 := by
  refine ⟨rfl, rfl, rfl⟩

/-! ## Rule creation (`CreateStreamRule`) -/

/-- Go's `streamRuleResponse` represents the response of the stream rules
endpoint: the created rules, the meta summary counts, and the errors
list that carries info about a duplicated rule. -/
structure streamRuleResponse where
  rules : List StreamRule
  created : Int
  notCreated : Int
  errors : List StreamRule
deriving DecidableEq, Repr

/-- What a `CreateStreamRule` call can do: return a rule together with an
optional error, or fail indexing an empty slice. -/
inductive CreateRuleOutcome where
  | ret (rule : StreamRule) (err : Option String)
  | indexOutOfRange
deriving DecidableEq, Repr

/-- Joining the option tokens into a rule expression: the source writes a
space before every option. -/
def buildRuleExpression (options : List String) : String :=
  options.foldl (fun acc o => acc ++ " " ++ o) ""

/-- The response processing of `CreateStreamRule` after the request is
sent: a non-201 status is a creation failure; a body-decode error is
returned as is; otherwise, when the meta summary says no rule was
created and the errors list is non-empty, the rule already exists and
the first errors entry (the existing rule) is returned with no error;
otherwise the first created rule is returned. -/
def createStreamRuleResult (statusCode : Nat)
    (decoded : Except String streamRuleResponse)
    (requestRule : StreamRule) : CreateRuleOutcome :=
  if statusCode ≠ 201 then .ret requestRule (some "failed to create rule")
  else
    match decoded with
    | .error e => .ret requestRule (some e)
    | .ok resp =>
        if resp.created ≠ 1 ∧ 0 < resp.errors.length then
          match resp.errors with
          | e :: _ => .ret e none
          | [] => .indexOutOfRange
        else
          match resp.rules with
          | r :: _ => .ret r none
          | [] => .indexOutOfRange

/-- Modelled from the spec: the remote rules endpoint (it is not part of
the repository; only its client is) keyed by expression.  Creating a new
expression assigns it a fresh identifier and reports it created;
creating an existing expression reports a success status whose meta
summary counts zero created and whose errors list carries the existing
rule — the duplicate-rule error keyed by expression. -/
def serverCreateRule (assigned : List StreamRule) (freshId : String)
    (expr : String) : List StreamRule × Nat × streamRuleResponse :=
  match assigned.find? (fun r => r.rule = expr) with
  | some r =>
      (assigned, 201,
        { rules := [], created := 0, notCreated := 1, errors := [r] })
  | none =>
      let r : StreamRule := { id := freshId, rule := expr }
      (r :: assigned, 201,
        { rules := [r], created := 1, notCreated := 0, errors := [] })

/-- One full `CreateStreamRule` call against the modelled server. -/
def createRuleCall (assigned : List StreamRule) (freshId : String)
    (expr : String) : List StreamRule × CreateRuleOutcome :=
  let res := serverCreateRule assigned freshId expr
  (res.1, createStreamRuleResult res.2.1 (.ok res.2.2) { id := "", rule := expr })

/-- C5: a duplicate-rule response (created count not 1 together with a
non-empty errors list) makes `CreateStreamRule` return the existing rule
carried by the errors list, with no error; a non-success status yields
the rule-creation-failed error; and, against the modelled server, two
calls with the same expression both return the rule under the identifier
the first call assigned, with no error and no new identifier. -/
theorem createStreamRule_idempotent (resp : streamRuleResponse)
    (requestRule : StreamRule) (e : StreamRule) (es : List StreamRule)
    (status : Nat) (decoded : Except String streamRuleResponse)
    (expr freshId freshId2 : String)
    (hdup : resp.created ≠ 1) (herr : resp.errors = e :: es)
    (hfail : status ≠ 201) :
    createStreamRuleResult 201 (.ok resp) requestRule = .ret e none ∧
    createStreamRuleResult status decoded requestRule =
      .ret requestRule (some "failed to create rule") ∧
    (createRuleCall [] freshId expr).2 = .ret ⟨freshId, expr⟩ none ∧
    (createRuleCall (createRuleCall [] freshId expr).1 freshId2 expr).2 =
      .ret ⟨freshId, expr⟩ none := by
  refine ⟨?_, ?_, ?_, ?_⟩
  · rw [createStreamRuleResult, if_neg (by omega)]
    rw [herr]
    rw [if_pos ⟨hdup, by simp⟩]
  · rw [createStreamRuleResult.eq_def, if_pos hfail]
  · simp [createRuleCall, serverCreateRule, createStreamRuleResult]
  · simp [createRuleCall, serverCreateRule, createStreamRuleResult]

theorem createStreamRule_idempotent_witness :
    (((0 : Int) ≠ 1 ∧
        ({ rules := [], created := 0, notCreated := 1,
           errors := [⟨"rid7", " foo"⟩] } : streamRuleResponse).errors =
          ⟨"rid7", " foo"⟩ :: [] ∧ (400 : Nat) ≠ 201) ∧
      (createStreamRuleResult 201
          (.ok { rules := [], created := 0, notCreated := 1,
                 errors := [⟨"rid7", " foo"⟩] }) ⟨"", " foo"⟩ =
        .ret ⟨"rid7", " foo"⟩ none ∧
       createStreamRuleResult 400
          (.ok { rules := [], created := 0, notCreated := 1,
                 errors := [⟨"rid7", " foo"⟩] }) ⟨"", " foo"⟩ =
        .ret ⟨"", " foo"⟩ (some "failed to create rule") ∧
       (createRuleCall [] "id1" " foo").2 = .ret ⟨"id1", " foo"⟩ none ∧
       (createRuleCall (createRuleCall [] "id1" " foo").1 "id2" " foo").2 =
        .ret ⟨"id1", " foo"⟩ none)) :=
  ⟨⟨by decide, rfl, by decide⟩,
    createStreamRule_idempotent
      { rules := [], created := 0, notCreated := 1, errors := [⟨"rid7", " foo"⟩] }
      ⟨"", " foo"⟩ ⟨"rid7", " foo"⟩ [] 400
      (.ok { rules := [], created := 0, notCreated := 1, errors := [⟨"rid7", " foo"⟩] })
      " foo" "id1" "id2" (by decide) rfl (by decide)⟩

/-! ## Rule deletion (`DeleteStreamRule`, `DeleteStreamRules`) -/

/-- The body of the delete request: the identifier list under
`delete.ids`. -/
structure DeleteRequestBody where
  ids : List String
deriving DecidableEq, Repr

/-- Go's `DeleteStreamRules` builds the request body from the rules'
identifiers, sends it (the server is a function from the body to a
status code and a response payload), and fails on a non-200 status with
the payload embedded in the error message. -/
def DeleteStreamRules (rules : List StreamRule)
    (server : DeleteRequestBody → Nat × String) :
    DeleteRequestBody × Option String :=
  let body : DeleteRequestBody := { ids := rules.map (fun r => r.id) }
  let res := server body
  (body,
    if res.1 ≠ 200 then some ("failed to delete rule. Response: " ++ res.2)
    else none)

/-- Go's `DeleteStreamRule` delegates to `DeleteStreamRules` with the
one-element list, as in the source. -/
def DeleteStreamRule (rule : StreamRule)
    (server : DeleteRequestBody → Nat × String) :
    DeleteRequestBody × Option String :=
  DeleteStreamRules [rule] server

/-- C10: deleting one rule is observably the deletion of the one-element
list containing it — the same call, issuing the single-element
identifier list as request body and returning the same result, whatever
the server answers. -/
theorem deleteStreamRule_refines_list (rule : StreamRule)
    (server : DeleteRequestBody → Nat × String) :
    DeleteStreamRule rule server = DeleteStreamRules [rule] server ∧
    (DeleteStreamRule rule server).1.ids = [rule.id] :=
  ⟨rfl, rfl⟩
